import Mathlib

/-! Verification of the loxun streaming XML writer (`loxun.py`).

The Python module is shallowly embedded.  The mutable state of an
`XmlWriter` object becomes the structure `Loxun.Writer`; each method
becomes a function `Writer → ... → Writer × Option String` returning the
post-call state together with `some message` when the Python code raises
(`XmlError`, `ValueError` or `AssertionError` — the raised message is the
`String`).  The output stream is modelled as the list of strings passed to
`output.write`, in the order they were written (`sinkText` is their
concatenation); byte-encoding of the output is outside the model, as are
the `unicode(...)` coercions (`_unicoded` is the identity on text that is
already unicode, which is how every modelled input is treated).  Python
`deque`s that the code uses at their right end only are modelled as lists
whose head is the right (most recently appended) end.  The Python dict
`self._namespaces` holds both `int` keys (scope depths) and `unicode` keys
(assigned in `_writeTag`); since an int key can never collide with a
string key, it is modelled as the two fields `namespaces` (int keys) and
`namespacesStrKeys` (string keys).
-/

namespace Loxun

/-- The whitespace test `unicode.isspace()` on the ASCII range (used by
`comment` for its leading/trailing blank decisions). -/
def pyIsSpace (c : Char) : Bool :=
  c = ' ' || c = '\t' || c = '\n' || c = '\r' || c = '\x0b' || c = '\x0c'

/-- Python `value.find(":")`, as the index of the first colon (`none`
standing for `-1`). -/
def pyFindColon : List Char → Option Nat
  | [] => none
  | c :: rest => if c = ':' then some 0 else (pyFindColon rest).map (· + 1)

/-- Python `lstrip` for a set of characters. -/
def lstripChars (cs : List Char) (blanks : List Char) : List Char :=
  cs.dropWhile (fun c => blanks.contains c)

/-- Python `rstrip` for a set of characters. -/
def rstripChars (cs : List Char) (blanks : List Char) : List Char :=
  (cs.reverse.dropWhile (fun c => blanks.contains c)).reverse

/-- Helper for `pyLines`: `cur` holds the characters of the current line in
reverse. -/
def pyLinesAux (cur : List Char) : List Char → List (List Char)
  | [] => if cur = [] then [] else [cur.reverse]
  | c :: rest =>
    if c = '\n' then (cur.reverse ++ ['\n']) :: pyLinesAux [] rest
    else pyLinesAux (c :: cur) rest

/-- Iterating `StringIO(text)` in Python 2 yields the physical lines of
`text`: it splits after every newline character, keeps the newline, and an
empty text yields no lines. -/
def pyLines (cs : List Char) : List (List Char) := pyLinesAux [] cs

/-- One character of `xml.sax.saxutils.escape`: `&`, `<` and `>` become
entity references (the replacements are applied with `&` first, so mapping
the characters independently is equivalent). -/
def escChar (c : Char) : List Char :=
  if c = '&' then "&amp;".toList
  else if c = '<' then "&lt;".toList
  else if c = '>' then "&gt;".toList
  else [c]

/-- `xml.sax.saxutils.escape` with no extra entities, as used by
`_writeEscaped`. -/
def saxEscape (s : String) : String := String.mk ((s.toList.map escChar).flatten)

/-- One character of the escaping step of `xml.sax.saxutils.quoteattr`,
which additionally maps `\n`, `\r` and `\t` to character references. -/
def quoteattrEscChar (c : Char) : List Char :=
  if c = '&' then "&amp;".toList
  else if c = '<' then "&lt;".toList
  else if c = '>' then "&gt;".toList
  else if c = '\n' then "&#10;".toList
  else if c = '\r' then "&#13;".toList
  else if c = '\t' then "&#9;".toList
  else [c]

/-- `_quoted`, i.e. `xml.sax.saxutils.quoteattr`: escape the value, then
wrap it in double quotes; a value containing a double quote is wrapped in
single quotes instead, and one containing both kinds of quote keeps double
quotes with `&quot;` substituted. -/
def quoted (value : String) : String :=
  let d := (value.toList.map quoteattrEscChar).flatten
  if d.contains '"' then
    if d.contains '\x27' then
      "\"" ++ String.mk ((d.map (fun c => if c = '"' then "&quot;".toList else [c])).flatten) ++ "\""
    else "\x27" ++ String.mk d ++ "\x27"
  else "\"" ++ String.mk d ++ "\""

/-- Python substring containment `pat in s`, on character lists. -/
def pySubstr (pat : List Char) : List Char → Bool
  | [] => pat.isPrefixOf []
  | c :: rest => pat.isPrefixOf (c :: rest) || pySubstr pat rest

/-- `_splitPossiblyQualifiedName` on the character list of the name;
`label` is the caller-supplied description used in error messages.  Note
that in the source the two inner `_validateNotEmpty` calls pass the
literal format strings `"namespace part of %s"` and `"name part of %s"`
without ever interpolating them, so the raised messages contain a literal
`%s`. -/
def splitQNCore (label : String) (value : List Char) :
    Except String (Option (List Char) × List Char) :=
  match pyFindColon value with
  | none =>
      if value = [] then .error (label ++ " must not be empty")
      else .ok (none, value)
  | some colonIndex =>
      let namespacePart := value.take colonIndex
      if namespacePart = [] then .error "namespace part of %s must not be empty"
      else
        let namePart := value.drop (colonIndex + 1)
        if namePart = [] then .error "name part of %s must not be empty"
        else .ok (some namespacePart, namePart)

/-- `_splitPossiblyQualifiedName` on strings. -/
def splitPossiblyQualifiedName (label : String) (value : String) :
    Except String (Option String × String) :=
  match splitQNCore label value.toList with
  | .error e => .error e
  | .ok (ns, nm) => .ok (ns.map String.mk, String.mk nm)

/-- `_joinPossiblyQualifiedName` on character lists.  `if namespace:` is
Python truthiness: `None` and the empty string both yield the bare name. -/
def joinQNCore (ns : Option (List Char)) (nm : List Char) : List Char :=
  match ns with
  | none => nm
  | some p => if p = [] then nm else p ++ ':' :: nm

/-- `_joinPossiblyQualifiedName` on strings. -/
def joinPossiblyQualifiedName (ns : Option String) (nm : String) : String :=
  match ns with
  | none => nm
  | some p => if p = "" then nm else p ++ ":" ++ nm

/-- The state of an `XmlWriter` object.  `output` is the sequence of
strings handed to `output.write`; `newline` stands for the
platform-dependent `os.linesep` captured at construction. -/
structure Writer where
  output : List String
  pretty : Bool
  indent : String
  newline : String
  encoding : String
  namespaces : List (Nat × List (String × String))
  namespacesStrKeys : List (String × String)
  elementStack : List (Option String × String)
  namespacesToAdd : List (String × String)
  isOpen : Bool
  contentHasBeenWritten : Bool
deriving DecidableEq

/-- Python dict lookup `m.get(k)` for the integer-keyed entries of
`self._namespaces`. -/
def alGet (m : List (Nat × List (String × String))) (k : Nat) :
    Option (List (String × String)) :=
  (m.find? (fun p => p.1 == k)).map Prod.snd

/-- Python dict assignment `m[k] = v` for the integer-keyed entries. -/
def alSet (m : List (Nat × List (String × String))) (k : Nat)
    (v : List (String × String)) : List (Nat × List (String × String)) :=
  if m.any (fun p => p.1 == k) then m.map (fun p => if p.1 == k then (k, v) else p)
  else m ++ [(k, v)]

/-- Python dict deletion `del m[k]` for the integer-keyed entries (a no-op
when the key is absent, matching the guarded `if k in m: del m[k]`). -/
def alDel (m : List (Nat × List (String × String))) (k : Nat) :
    List (Nat × List (String × String)) :=
  m.filter (fun p => !(p.1 == k))

/-- Python dict assignment for a string-keyed dict. -/
def alSetS (m : List (String × String)) (k v : String) : List (String × String) :=
  if m.any (fun p => p.1 == k) then m.map (fun p => if p.1 == k then (k, v) else p)
  else m ++ [(k, v)]

/-- `XmlWriter._write`: sends `text` to the sink and flips
`_contentHasBeenWritten` when `text` is non-empty (the encoding step is the
identity in this model). -/
def pyWrite (st : Writer) (text : String) : Writer :=
  { st with
    output := st.output ++ [text],
    contentHasBeenWritten := st.contentHasBeenWritten || decide (text ≠ "") }

/-- Python `s * n` for a string `s`. -/
def repeatStr (s : String) : Nat → String
  | 0 => ""
  | n + 1 => s ++ repeatStr s n

/-- `XmlWriter._writeIndent`. -/
def writeIndent (st : Writer) : Writer :=
  pyWrite st (repeatStr st.indent st.elementStack.length)

/-- `XmlWriter._writePrettyIndent`. -/
def writePrettyIndent (st : Writer) : Writer :=
  if st.pretty then writeIndent st else st

/-- `XmlWriter.newline`. -/
def newlineOp (st : Writer) : Writer := pyWrite st st.newline

/-- `XmlWriter._writePrettyNewline`. -/
def writePrettyNewline (st : Writer) : Writer :=
  if st.pretty then newlineOp st else st

/-- `XmlWriter._writeEscaped`. -/
def writeEscaped (st : Writer) (text : String) : Writer :=
  pyWrite st (saxEscape text)

/-- The concatenation of everything the sink has received. -/
def sinkText (st : Writer) : String := String.join st.output

/-- `XmlWriter._elementName` (also built inline in `_writeTag`): prepend
the namespace and a colon when the namespace is truthy. -/
def elementName (name : String) (ns : Option String) : String :=
  match ns with
  | none => name
  | some p => if p = "" then name else p ++ ":" ++ name

/-- The scope search of `_validateNamespaceItem`: scan the integer-keyed
namespace entries at depths `i` down to `0` for a declaration whose first
component is `ns`. -/
def namespaceFoundAt (m : List (Nat × List (String × String))) (ns : String) :
    Nat → Bool
  | 0 => ((alGet m 0).getD []).any (fun p => p.1 == ns)
  | i + 1 =>
      ((alGet m (i + 1)).getD []).any (fun p => p.1 == ns) ||
        namespaceFoundAt m ns i

/-- `XmlWriter._validateNamespaceItem`: `none` when the item is fine, the
raised message otherwise. -/
def validateNamespaceItem (st : Writer) (itemName : String) (ns : Option String)
    (qualifiedName : String) : Option String :=
  match ns with
  | none => none
  | some nsp =>
    if nsp = "" then none
    else if namespaceFoundAt st.namespaces nsp st.elementStack.length then none
    else
      some ("namespace '" ++ nsp ++ "' for " ++ itemName ++ " '" ++ qualifiedName ++
        "' must be added before use")

/-- Python `==` between a string and a pair of strings, as exercised by the
membership tests `uniName in self._namespacesToAdd` and
`uniName in namespacesForScope` inside `addNamespace`: the elements of both
containers are 2-tuples `(name, uri)`, and in Python a string never
compares equal to a tuple, so the test is constantly false. -/
def pyStrEqPair (_s : String) (_p : String × String) : Bool := false

/-- `XmlWriter.addNamespace`. -/
def XmlWriter.addNamespace (st : Writer) (name uri : String) :
    Writer × Option String :=
  if name = "" then (st, some "name must not be empty")
  else if uri = "" then (st, some "uri must not be empty")
  else
    let namespacesForScope := alGet st.namespaces st.elementStack.length
    let namespaceExists :=
      st.namespacesToAdd.any (pyStrEqPair name) ||
        (namespacesForScope.isSome &&
          ((namespacesForScope.getD []).any (pyStrEqPair name)))
    if namespaceExists then
      (st, some ("namespace u'" ++ name ++
        "' must added only once for current scope but already is u'" ++ uri ++ "'"))
    else
      ({ st with namespacesToAdd := (name, uri) :: st.namespacesToAdd }, none)

/-- The three values of `_writeTag`'s `close` parameter. -/
inductive CloseMode where
  | cnone
  | catStart
  | catEnd
deriving DecidableEq

/-- The drain loop at the top of `_writeTag` for the open / self-close
modes.  The list argument is `self._namespacesToAdd` (head = most recently
added entry, which `deque.pop()` removes first); the loop synthesises an
`xmlns` attribute for every pending declaration and registers it in the
scope map at the current depth.  The third component is `some
"AssertionError"` when the `assert namespaceName not in ...` in the source
fails. -/
def drainPending : List (String × String) → Writer → List (String × String) →
    Writer × List (String × String) × Option String
  | [], st, attrs => (st, attrs, none)
  | (n, uri) :: rest, st, attrs =>
    let st1 := { st with namespacesToAdd := rest }
    let attrs1 := alSetS attrs (if n = "" then "xmlns" else "xmlns:" ++ n) uri
    let scope := st1.elementStack.length
    let ns1 :=
      if (alGet st1.namespaces scope).isNone then alSet st1.namespaces scope []
      else st1.namespaces
    let forScope := (alGet ns1 scope).getD []
    if forScope.any (fun p => p.1 == n) then
      ({ st1 with namespaces := ns1 }, attrs1, some "AssertionError")
    else
      let st2 :=
        { st1 with
          namespaces := alSet ns1 scope (forScope ++ [(n, uri)]),
          namespacesStrKeys := alSetS st1.namespacesStrKeys n uri }
      drainPending rest st2 attrs1

/-- `", ".join(name for name, _ in self._namespacesToAdd)`: the deque is
iterated oldest entry first, which is the reverse of our list order. -/
def pendingNames (pending : List (String × String)) : String :=
  String.intercalate ", " (pending.reverse.map Prod.fst)

/-- The attribute-conversion loop of `_writeTag`: split every attribute
name, validate its namespace against the current scopes, and store the
pair in the `actualAttributes` dict. -/
def convertAttributes (st : Writer) :
    List (String × String) → List (String × String) →
    Except String (List (String × String))
  | [], acc => .ok acc
  | (qualifiedAttributeName, attributeValue) :: rest, acc =>
    match splitPossiblyQualifiedName "attribute name" qualifiedAttributeName with
    | .error e => .error e
    | .ok (attributeNamespace, attributeName) =>
      match validateNamespaceItem st "attribute" attributeNamespace attributeName with
      | some e => .error e
      | none =>
        convertAttributes st rest (alSetS acc qualifiedAttributeName attributeValue)

/-- Insert an attribute into a list sorted by attribute name. -/
def insertAttrSorted (p : String × String) :
    List (String × String) → List (String × String)
  | [] => [p]
  | q :: rest =>
    if decide (p.1 < q.1) then p :: q :: rest else q :: insertAttrSorted p rest

/-- `sorted(actualAttributes.keys())`: the attributes in lexicographically
sorted order of their names (the dict keys are unique). -/
def sortAttrs : List (String × String) → List (String × String)
  | [] => []
  | p :: rest => insertAttrSorted p (sortAttrs rest)

/-- The attribute-emission loop of `_writeTag`. -/
def writeAttrs (st : Writer) : List (String × String) → Writer
  | [] => st
  | (n, v) :: rest => writeAttrs (pyWrite st (" " ++ n ++ "=" ++ quoted v)) rest

/-- The emission tail of `_writeTag`: indentation when pretty, `<`, `/`
for an end tag, the element name, the sorted attributes, the self-close
marker, `>`, and a newline when pretty. -/
def emitTag (st1 : Writer) (element : String) (close : CloseMode)
    (actualAttributes : List (String × String)) : Writer :=
  let st2 :=
    if st1.pretty then
      pyWrite st1 (repeatStr st1.indent st1.elementStack.length)
    else st1
  let st3 := pyWrite st2 "<"
  let st4 :=
    match close with
    | CloseMode.catStart => pyWrite st3 "/"
    | _ => st3
  let st5 := pyWrite st4 element
  let st6 := writeAttrs st5 (sortAttrs actualAttributes)
  let st7 :=
    match close with
    | CloseMode.catEnd =>
      pyWrite (if st6.pretty then pyWrite st6 " " else st6) "/"
    | _ => st6
  let st8 := pyWrite st7 ">"
  writePrettyNewline st8

/-- `XmlWriter._writeTag`.  The leading `assert name` is modelled as an
`AssertionError`; for the end-tag mode a non-empty pending-namespace queue
raises instead of draining. -/
def writeTag (st : Writer) (ns : Option String) (name : String)
    (close : CloseMode) (attributes : List (String × String)) :
    Writer × Option String :=
  if name = "" then (st, some "AssertionError")
  else
    let drained : Writer × List (String × String) × Option String :=
      match close with
      | CloseMode.catStart =>
        match st.namespacesToAdd with
        | [] => (st, [], none)
        | p :: rest =>
          (st, [], some ("namespaces must be added before startTag() or tag(): " ++
            pendingNames (p :: rest)))
      | _ => drainPending st.namespacesToAdd st []
    match drained with
    | (st1, _, some e) => (st1, some e)
    | (st1, nsAttrs, none) =>
      match convertAttributes st1 attributes nsAttrs with
      | .error e => (st1, some e)
      | .ok actualAttributes =>
        match validateNamespaceItem st1 "tag" ns name with
        | some e => (st1, some e)
        | none => (emitTag st1 (elementName name ns) close actualAttributes, none)

/-- `XmlWriter.startTag`. -/
def XmlWriter.startTag (st : Writer) (qualifiedName : String)
    (attributes : List (String × String)) : Writer × Option String :=
  match splitPossiblyQualifiedName "tag name" qualifiedName with
  | .error e => (st, some e)
  | .ok (ns, nm) =>
    match writeTag st ns nm CloseMode.cnone attributes with
    | (st1, some e) => (st1, some e)
    | (st1, none) =>
      ({ st1 with elementStack := (ns, nm) :: st1.elementStack }, none)

/-- `XmlWriter.endTag`.  `expected = none` (and, by Python truthiness, the
empty string) skips the name check; on a mismatch the popped entry is
pushed back before the error is raised. -/
def XmlWriter.endTag (st : Writer) (expected : Option String) :
    Writer × Option String :=
  match st.elementStack with
  | [] => (st, some "tag stack must not be empty")
  | (ns, nm) :: rest =>
    let scopeToRemove := st.elementStack.length
    let st1 := { st with elementStack := rest }
    let mismatch : Option String :=
      match expected with
      | none => none
      | some e =>
        if e = "" then none
        else
          let actual := joinPossiblyQualifiedName ns nm
          if actual = e then none
          else some ("tag name must be " ++ e ++ " but is " ++ actual)
    match mismatch with
    | some msg => ({ st1 with elementStack := (ns, nm) :: rest }, some msg)
    | none =>
      let st2 := { st1 with namespaces := alDel st1.namespaces scopeToRemove }
      writeTag st2 ns nm CloseMode.catStart []

/-- `XmlWriter.tag` (a self-closing tag; nothing is pushed). -/
def XmlWriter.tag (st : Writer) (qualifiedName : String)
    (attributes : List (String × String)) : Writer × Option String :=
  match splitPossiblyQualifiedName "tag name" qualifiedName with
  | .error e => (st, some e)
  | .ok (ns, nm) => writeTag st ns nm CloseMode.catEnd attributes

/-- The per-line body of `XmlWriter.text` when pretty printing is on. -/
def textLinesLoop : List (List Char) → Writer → Writer
  | [], st => st
  | line :: rest, st =>
    let st1 := writeIndent st
    let stripped := rstripChars (lstripChars line [' ', '\t']) [' ', '\t', '\r', '\n']
    let st2 := writeEscaped st1 (String.mk stripped)
    let st3 := newlineOp st2
    textLinesLoop rest st3

/-- `XmlWriter.text` (`text` is never `None` in the typed model, so the
`_validateNotNone` guard cannot fire and the call always succeeds). -/
def XmlWriter.text (st : Writer) (t : String) : Writer × Option String :=
  if st.pretty then (textLinesLoop (pyLines t.toList) st, none)
  else (writeEscaped st t, none)

/-- The per-line body of the multi-line branch of `XmlWriter.comment`. -/
def commentLinesLoop : List (List Char) → Writer → Writer
  | [], st => st
  | line :: rest, st =>
    let st1 := if st.pretty then writeIndent st else st
    let st2 := writeEscaped st1 (String.mk (rstripChars line ['\n', '\r']))
    let st3 := newlineOp st2
    commentLinesLoop rest st3

/-- `XmlWriter.comment`. -/
def XmlWriter.comment (st : Writer) (text : String) (embedInBlanks : Bool) :
    Writer × Option String :=
  if !embedInBlanks && decide (text = "") then
    (st, some "text for comment must not be empty, or option embedInBlanks=True must be set")
  else if pySubstr "--".toList text.toList then
    (st, some "text for comment must not contain \"--\"")
  else
    let cs := text.toList
    let hasNewline := cs.contains '\n' || cs.contains '\r'
    let hasStartBlank := match cs with | [] => false | c :: _ => pyIsSpace c
    let hasEndBlank := decide (1 < cs.length) && pyIsSpace (cs.getLastD ' ')
    let st1 := writePrettyIndent st
    let st2 := pyWrite st1 "<!--"
    let st3 :=
      if hasNewline then
        let stA :=
          if st2.pretty then newlineOp st2
          else if embedInBlanks && !hasStartBlank then pyWrite st2 " " else st2
        let stB := commentLinesLoop (pyLines cs) stA
        writePrettyIndent stB
      else
        let stA := if embedInBlanks && !hasStartBlank then pyWrite st2 " " else st2
        let stB := writeEscaped stA text
        if embedInBlanks && !hasEndBlank then pyWrite stB " " else stB
    let st4 := pyWrite st3 "-->"
    (writePrettyNewline st4, none)

/-- `XmlWriter._rawBlock`. -/
def rawBlock (st : Writer) (name start finish text : String) :
    Writer × Option String :=
  if pySubstr finish.toList text.toList then
    (st, some ("text for " ++ name ++ " must not contain \"" ++ finish ++ "\""))
  else
    let st1 := writePrettyIndent st
    let st2 := pyWrite st1 start
    let st3 := pyWrite st2 text
    let st4 := pyWrite st3 finish
    (writePrettyNewline st4, none)

/-- `XmlWriter.cdata`. -/
def XmlWriter.cdata (st : Writer) (text : String) : Writer × Option String :=
  rawBlock st "CDATA section" "<![CDATA[" "]]>" text

/-- `XmlWriter.processingInstruction`.  Note the slip in the source: both
`_validateNotNone` and `_validateNotEmpty` are called on `text` (under the
label `"target for processing instrution"`, typo included) and `target` is
never validated at all. -/
def XmlWriter.processingInstruction (st : Writer) (target text : String) :
    Writer × Option String :=
  if text = "" then
    (st, some "target for processing instrution must not be empty")
  else
    let uniFullText := target ++ (if text ≠ "" then " " ++ text else "")
    rawBlock st "processing instruction" "<?" "?>" uniFullText

/-- `XmlWriter.raw` (`text` is never `None` in the typed model, so the call
always succeeds). -/
def XmlWriter.raw (st : Writer) (text : String) : Writer × Option String :=
  (pyWrite st text, none)

/-- The accumulation loop of `XmlWriter.close`, building the comma-joined
list of still-open tags from the element stack (head = innermost). -/
def closeLoop : List (Option String × String) → String → String
  | [], acc => acc
  | (ns, nm) :: rest, acc =>
    let acc1 := if acc ≠ "" then acc ++ ", " else acc
    closeLoop rest (acc1 ++ "</" ++ elementName nm ns ++ ">")

/-- `XmlWriter.close`.  The source pops every remaining stack entry and
raises when any were left; it never touches `_isOpen`. -/
def XmlWriter.close (st : Writer) : Writer × Option String :=
  let remainingElements := closeLoop st.elementStack ""
  let st1 := { st with elementStack := [] }
  if remainingElements ≠ "" then
    (st1, some ("missing end tags must be added: " ++ remainingElements))
  else (st1, none)

/-- `XmlWriter.__init__`.  `newline` stands for `os.linesep`; `errors` and
`sourceEncoding` only affect the byte-encoding layer, which is outside the
model.  The version string is validated first; with `prolog` the XML
prolog is emitted through `processingInstruction`. -/
def mkXmlWriter (pretty : Bool) (encoding : String) (prolog : Bool)
    (version : String) (newline : String) : Except String Writer :=
  if version = "" then .error "version must not be empty"
  else
    let st : Writer :=
      { output := [], pretty := pretty, indent := "  ", newline := newline,
        encoding := encoding, namespaces := [], namespacesStrKeys := [],
        elementStack := [], namespacesToAdd := [], isOpen := true,
        contentHasBeenWritten := false }
    if prolog then
      match XmlWriter.processingInstruction st "xml"
          ("version=" ++ quoted version ++ " encoding=" ++ quoted encoding) with
      | (st1, none) => .ok st1
      | (_, some e) => .error e
    else .ok st

/-- Run one method call after a prior result; a raised error aborts the
call sequence. -/
def step (r : Except String Writer) (f : Writer → Writer × Option String) :
    Except String Writer :=
  match r with
  | .error e => .error e
  | .ok st =>
    match f st with
    | (st1, none) => .ok st1
    | (_, some e) => .error e

/-- The sink contents of a successful run. -/
def sinkOf : Except String Writer → Option String
  | .error _ => none
  | .ok st => some (sinkText st)

/-- The call sequence of the basic-usage scenario: default construction
(pretty printing, utf-8, prolog, version 1.0; `nl` is the platform line
terminator), then `startTag("html")`, `startTag("body", {"id": "top"})`,
`text("Hello world!")`, `endTag()`, `endTag()`, `close()`. -/
def c1Run (nl : String) : Except String Writer :=
  step (step (step (step (step (step
    (mkXmlWriter true "utf-8" true "1.0" nl)
    (fun st => XmlWriter.startTag st "html" []))
    (fun st => XmlWriter.startTag st "body" [("id", "top")]))
    (fun st => XmlWriter.text st "Hello world!"))
    (fun st => XmlWriter.endTag st none))
    (fun st => XmlWriter.endTag st none))
    (fun st => XmlWriter.close st)

/-- A freshly constructed writer with default settings except
`prolog=False`, over a Unix line terminator. -/
def freshWriter : Writer :=
  { output := [], pretty := true, indent := "  ", newline := "\n",
    encoding := "utf-8", namespaces := [], namespacesStrKeys := [],
    elementStack := [], namespacesToAdd := [], isOpen := true,
    contentHasBeenWritten := false }

/-- A writer state reached inside the default scenario of C1: the default
configuration over line terminator `nl`, with sink chunks `out`, element
stack `stack`, and everything else untouched. -/
def c1State (nl : String) (out : List String)
    (stack : List (Option String × String)) : Writer :=
  { output := out, pretty := true, indent := "  ", newline := nl,
    encoding := "utf-8", namespaces := [], namespacesStrKeys := [],
    elementStack := stack, namespacesToAdd := [], isOpen := true,
    contentHasBeenWritten := true }

/-- Spec-side rendering of the unclosed tags reported by `close()`: the
stack entries innermost first, each as `</namespace:name>` (or `</name>`
without a namespace), comma-joined. -/
def renderUnclosed : List (Option String × String) → String
  | [] => ""
  | [(ns, nm)] => "</" ++ elementName nm ns ++ ">"
  | (ns, nm) :: p :: rest =>
    "</" ++ elementName nm ns ++ ">" ++ ", " ++ renderUnclosed (p :: rest)

/-- The scoping state and the configuration of the writer are untouched:
every field except the sink chunks and the has-written-content flag agrees
between `st` and `st1`. -/
def framePreserved (st st1 : Writer) : Prop :=
  st1.pretty = st.pretty ∧ st1.indent = st.indent ∧ st1.newline = st.newline ∧
  st1.encoding = st.encoding ∧ st1.namespaces = st.namespaces ∧
  st1.namespacesStrKeys = st.namespacesStrKeys ∧
  st1.elementStack = st.elementStack ∧
  st1.namespacesToAdd = st.namespacesToAdd ∧ st1.isOpen = st.isOpen

/-- Everything but the namespace bookkeeping agrees between `st` and
`st1` (the namespace-drain loop of `_writeTag` touches only the namespace
fields). -/
def sameExceptNs (st st1 : Writer) : Prop :=
  st1.output = st.output ∧ st1.pretty = st.pretty ∧ st1.indent = st.indent ∧
  st1.newline = st.newline ∧ st1.encoding = st.encoding ∧
  st1.elementStack = st.elementStack ∧ st1.isOpen = st.isOpen ∧
  st1.contentHasBeenWritten = st.contentHasBeenWritten

/-- Visibility of an element's namespace for the tag write performed by a
successful `endTag`: after the pop and the scope-entry deletion, a truthy
namespace must still be found at some remaining depth. -/
def nsVisibleForEndTag (st : Writer) (ns : Option String)
    (rest : List (Option String × String)) : Bool :=
  match ns with
  | none => true
  | some s =>
    decide (s = "") ||
      namespaceFoundAt (alDel st.namespaces (rest.length + 1)) s rest.length

/-- A writer with two open tags, used as a concrete input. -/
def sampleOpenWriter : Writer :=
  { freshWriter with elementStack := [(some "a", "b"), (none, "c")] }

/-- A writer with `xhtml:body` innermost inside `html`, with the `xhtml`
namespace declared at depth 0, used as a concrete input. -/
def sampleNsWriter : Writer :=
  { freshWriter with
    elementStack := [(some "xhtml", "body"), (none, "html")],
    namespaces := [(0, [("xhtml", "http://www.w3.org/1999/xhtml")])] }

/-- A writer in which `child` is the innermost open element inside `root`
and the prefix `p` was flushed to a tag inside `child`, so it is recorded
at depth 2. -/
def sampleScopedWriter : Writer :=
  { freshWriter with
    elementStack := [(none, "child"), (none, "root")],
    namespaces := [(2, [("p", "u")])] }

/-! Theorems. -/

set_option maxHeartbeats 2000000 in
set_option maxRecDepth 4000 in
/-- C1: for a writer constructed with all defaults (pretty printing on,
encoding utf-8, prolog on, version 1.0) over any line terminator `nl`, the
call sequence `startTag("html")`, `startTag("body", {"id": "top"})`,
`text("Hello world!")`, `endTag()`, `endTag()`, `close()` succeeds and the
sink receives exactly the prolog line, `<html>`, `  <body id="top">`,
`    Hello world!`, `  </body>` and `</html>`, each terminated by the
writer's line terminator. -/
theorem claim1_default_scenario_output (nl : String) :
    sinkOf (c1Run nl) =
      some ("<?xml version=\"1.0\" encoding=\"utf-8\"?>" ++ nl ++ "<html>" ++ nl ++
        "  <body id=\"top\">" ++ nl ++ "    Hello world!" ++ nl ++ "  </body>" ++ nl ++
        "</html>" ++ nl) := by
  have h0 : mkXmlWriter true "utf-8" true "1.0" nl =
      .ok (c1State nl ["", "<?", "xml version=\"1.0\" encoding=\"utf-8\"", "?>", nl] []) := rfl
  have h1 : XmlWriter.startTag
      (c1State nl ["", "<?", "xml version=\"1.0\" encoding=\"utf-8\"", "?>", nl] [])
      "html" [] =
      (c1State nl ["", "<?", "xml version=\"1.0\" encoding=\"utf-8\"", "?>", nl,
        "", "<", "html", ">", nl] [(none, "html")], none) := rfl
  have h2 : XmlWriter.startTag
      (c1State nl ["", "<?", "xml version=\"1.0\" encoding=\"utf-8\"", "?>", nl,
        "", "<", "html", ">", nl] [(none, "html")])
      "body" [("id", "top")] =
      (c1State nl ["", "<?", "xml version=\"1.0\" encoding=\"utf-8\"", "?>", nl,
        "", "<", "html", ">", nl,
        "  ", "<", "body", " id=\"top\"", ">", nl]
        [(none, "body"), (none, "html")], none) := rfl
  have h3 : XmlWriter.text
      (c1State nl ["", "<?", "xml version=\"1.0\" encoding=\"utf-8\"", "?>", nl,
        "", "<", "html", ">", nl,
        "  ", "<", "body", " id=\"top\"", ">", nl]
        [(none, "body"), (none, "html")])
      "Hello world!" =
      (c1State nl ["", "<?", "xml version=\"1.0\" encoding=\"utf-8\"", "?>", nl,
        "", "<", "html", ">", nl,
        "  ", "<", "body", " id=\"top\"", ">", nl,
        "    ", "Hello world!", nl]
        [(none, "body"), (none, "html")], none) := rfl
  have h4 : XmlWriter.endTag
      (c1State nl ["", "<?", "xml version=\"1.0\" encoding=\"utf-8\"", "?>", nl,
        "", "<", "html", ">", nl,
        "  ", "<", "body", " id=\"top\"", ">", nl,
        "    ", "Hello world!", nl]
        [(none, "body"), (none, "html")]) none =
      (c1State nl ["", "<?", "xml version=\"1.0\" encoding=\"utf-8\"", "?>", nl,
        "", "<", "html", ">", nl,
        "  ", "<", "body", " id=\"top\"", ">", nl,
        "    ", "Hello world!", nl,
        "  ", "<", "/", "body", ">", nl]
        [(none, "html")], none) := rfl
  have h5 : XmlWriter.endTag
      (c1State nl ["", "<?", "xml version=\"1.0\" encoding=\"utf-8\"", "?>", nl,
        "", "<", "html", ">", nl,
        "  ", "<", "body", " id=\"top\"", ">", nl,
        "    ", "Hello world!", nl,
        "  ", "<", "/", "body", ">", nl]
        [(none, "html")]) none =
      (c1State nl ["", "<?", "xml version=\"1.0\" encoding=\"utf-8\"", "?>", nl,
        "", "<", "html", ">", nl,
        "  ", "<", "body", " id=\"top\"", ">", nl,
        "    ", "Hello world!", nl,
        "  ", "<", "/", "body", ">", nl,
        "", "<", "/", "html", ">", nl] [], none) := rfl
  have h6 : XmlWriter.close
      (c1State nl ["", "<?", "xml version=\"1.0\" encoding=\"utf-8\"", "?>", nl,
        "", "<", "html", ">", nl,
        "  ", "<", "body", " id=\"top\"", ">", nl,
        "    ", "Hello world!", nl,
        "  ", "<", "/", "body", ">", nl,
        "", "<", "/", "html", ">", nl] []) =
      (c1State nl ["", "<?", "xml version=\"1.0\" encoding=\"utf-8\"", "?>", nl,
        "", "<", "html", ">", nl,
        "  ", "<", "body", " id=\"top\"", ">", nl,
        "    ", "Hello world!", nl,
        "  ", "<", "/", "body", ">", nl,
        "", "<", "/", "html", ">", nl] [], none) := rfl
  unfold c1Run
  rw [h0]
  simp only [step]
  rw [h1]
  simp only [step]
  rw [h2]
  simp only [step]
  rw [h3]
  simp only [step]
  rw [h4]
  simp only [step]
  rw [h5]
  simp only [step]
  rw [h6]
  refine congrArg some (String.ext ?_)
  simp only [sinkOf, sinkText, c1State, String.join, List.foldl, String.data_append,
    List.append_assoc]
  rfl

/-- C2 (code bug): `close()` on an empty-stack writer succeeds but does not
mark the writer closed (`_isOpen` stays true, `_validateIsOpen` is never
called by any method), so subsequent writes such as `text`, `startTag`,
`comment` and `raw` all succeed and emit to the sink, where the claim
requires them to fail with a closed-writer error. -/
theorem claim2_writes_after_close_succeed :
    mkXmlWriter true "utf-8" false "1.0" "\n" = .ok freshWriter ∧
    XmlWriter.close freshWriter = (freshWriter, none) ∧
    (XmlWriter.close freshWriter).1.isOpen = true ∧
    XmlWriter.text (XmlWriter.close freshWriter).1 "after" =
      ({ freshWriter with
          output := ["", "after", "\n"], contentHasBeenWritten := true }, none) ∧
    (XmlWriter.startTag (XmlWriter.close freshWriter).1 "x" []).2 = none ∧
    (XmlWriter.comment (XmlWriter.close freshWriter).1 "c" true).2 = none ∧
    (XmlWriter.raw (XmlWriter.close freshWriter).1 "r").2 = none :=
  ⟨rfl, rfl, rfl, rfl, rfl, rfl, rfl⟩

/-- C3 (code bug): the duplicate test in `addNamespace` compares the
prefix string against the `(name, uri)` 2-tuples stored in
`_namespacesToAdd` and in the scope entry, which in Python is always
false, so a second `addNamespace` with the same prefix and no tag written
in between succeeds and enqueues a duplicate — and flushing the queue with
the next `startTag` then trips the source's own
`assert namespaceName not in ...` — where the claim requires the second
call itself to fail. -/
theorem claim3_duplicate_addNamespace_succeeds :
    (XmlWriter.addNamespace freshWriter "xhtml" "u1").2 = none ∧
    XmlWriter.addNamespace (XmlWriter.addNamespace freshWriter "xhtml" "u1").1
        "xhtml" "u2" =
      ({ freshWriter with
         namespacesToAdd := [("xhtml", "u2"), ("xhtml", "u1")] }, none) ∧
    (XmlWriter.startTag
      (XmlWriter.addNamespace (XmlWriter.addNamespace freshWriter "xhtml" "u1").1
        "xhtml" "u2").1 "t" []).2 = some "AssertionError" :=
  ⟨rfl, rfl, rfl⟩

/-- C7 (code bug): `processingInstruction` validates `text` twice (under
the label `target for processing instrution`) and never validates
`target`, so an empty target with non-empty text succeeds and emits
`<? data?>`, where the claim requires an empty target to fail; an empty
`text` does fail. -/
theorem claim7_empty_target_accepted :
    XmlWriter.processingInstruction freshWriter "" "data" =
      ({ freshWriter with
          output := ["", "<?", " data", "?>", "\n"],
          contentHasBeenWritten := true }, none) ∧
    String.join ["", "<?", " data", "?>", "\n"] = "<? data?>\n" ∧
    (XmlWriter.processingInstruction freshWriter "sometarget" "").2 =
      some "target for processing instrution must not be empty" :=
  ⟨rfl, rfl, rfl⟩

/-- The index returned by `pyFindColon` points at an actual colon:
re-attaching the split parts around it reconstructs the input. -/
theorem pyFindColon_reconstruct :
    ∀ (v : List Char) (i : Nat), pyFindColon v = some i →
      v.take i ++ ':' :: v.drop (i + 1) = v
  | [], i, h => by simp [pyFindColon] at h
  | c :: rest, i, h => by
    by_cases hc : c = ':'
    · rw [pyFindColon, if_pos hc] at h
      obtain rfl : (0 : Nat) = i := Option.some.inj h
      simp [hc]
    · rw [pyFindColon, if_neg hc] at h
      obtain ⟨j, hj, rfl⟩ := Option.map_eq_some'.mp h
      simpa [List.take_succ_cons, List.drop_succ_cons] using
        pyFindColon_reconstruct rest j hj

/-- C8: qualified-name splitting divides the name at its first colon into
(namespace, local name), yields `(none, name)` when no colon is present,
and fails exactly when the local-name part is empty or a colon is present
with an empty namespace part (in particular `:foo`, `foo:` and the empty
name are rejected); re-joining any accepted split reproduces the original
name. -/
theorem claim8_split_join_inverse (label : String) (v : List Char) :
    (∀ ns nm, splitQNCore label v = .ok (ns, nm) → joinQNCore ns nm = v) ∧
    ((∃ e, splitQNCore label v = .error e) ↔
      ((pyFindColon v = none ∧ v = []) ∨
       (∃ i, pyFindColon v = some i ∧ (v.take i = [] ∨ v.drop (i + 1) = [])))) ∧
    (∃ e, splitQNCore label (':' :: "foo".toList) = .error e) ∧
    (∃ e, splitQNCore label ("foo".toList ++ [':']) = .error e) ∧
    (∃ e, splitQNCore label [] = .error e) := by
  refine ⟨?_, ?_, ⟨"namespace part of %s must not be empty", rfl⟩,
    ⟨"name part of %s must not be empty", rfl⟩,
    ⟨label ++ " must not be empty", rfl⟩⟩
  · intro ns nm hok
    cases h : pyFindColon v with
    | none =>
      simp only [splitQNCore, h] at hok
      by_cases hv : v = []
      · rw [if_pos hv] at hok; exact absurd hok (by simp)
      · rw [if_neg hv] at hok
        obtain ⟨rfl, rfl⟩ : none = ns ∧ v = nm := by
          have h2 := Except.ok.inj hok
          exact ⟨congrArg Prod.fst h2, congrArg Prod.snd h2⟩
        rfl
    | some i =>
      simp only [splitQNCore, h] at hok
      by_cases ht : v.take i = []
      · rw [if_pos ht] at hok; exact absurd hok (by simp)
      · rw [if_neg ht] at hok
        by_cases hd : v.drop (i + 1) = []
        · rw [if_pos hd] at hok; exact absurd hok (by simp)
        · rw [if_neg hd] at hok
          obtain ⟨hns, hnm⟩ : some (v.take i) = ns ∧ v.drop (i + 1) = nm := by
            have h2 := Except.ok.inj hok
            exact ⟨congrArg Prod.fst h2, congrArg Prod.snd h2⟩
          subst hns; subst hnm
          simp only [joinQNCore]
          rw [if_neg ht]
          exact pyFindColon_reconstruct v i h
  · cases h : pyFindColon v with
    | none =>
      simp only [splitQNCore, h]
      by_cases hv : v = []
      · rw [if_pos hv]
        exact ⟨fun _ => Or.inl ⟨by trivial, hv⟩,
          fun _ => ⟨label ++ " must not be empty", rfl⟩⟩
      · rw [if_neg hv]
        constructor
        · rintro ⟨e, he⟩; exact absurd he (by simp)
        · rintro (⟨-, hv2⟩ | ⟨i, hi, -⟩)
          · exact absurd hv2 hv
          · exact absurd hi (by simp)
    | some i =>
      simp only [splitQNCore, h]
      by_cases ht : v.take i = []
      · rw [if_pos ht]
        exact ⟨fun _ => Or.inr ⟨i, by trivial, Or.inl ht⟩, fun _ => ⟨_, rfl⟩⟩
      · rw [if_neg ht]
        by_cases hd : v.drop (i + 1) = []
        · rw [if_pos hd]
          exact ⟨fun _ => Or.inr ⟨i, by trivial, Or.inr hd⟩, fun _ => ⟨_, rfl⟩⟩
        · rw [if_neg hd]
          constructor
          · rintro ⟨e, he⟩; exact absurd he (by simp)
          · rintro (⟨hno, -⟩ | ⟨j, hj, hcase⟩)
            · exact absurd hno (by simp)
            · obtain rfl : i = j := Option.some.inj hj
              rcases hcase with hc | hc
              · exact absurd hc ht
              · exact absurd hc hd

/-- Witness for C8 at the concrete name `a:b`. -/
theorem claim8_split_join_inverse_witness :
    joinQNCore (some ['a']) ['b'] = ['a', ':', 'b'] :=
  (claim8_split_join_inverse "x" ['a', ':', 'b']).1 (some ['a']) ['b'] rfl

/-- A string is empty exactly when its character list is. -/
theorem strEmptyIffData (s : String) : s = "" ↔ s.data = [] := by
  constructor
  · rintro rfl; rfl
  · intro h
    cases s with
    | mk l => cases h; rfl

/-- String append is associative. -/
theorem strAppendAssoc (a b c : String) : a ++ b ++ c = a ++ (b ++ c) := by
  cases a with
  | mk la =>
    cases b with
    | mk lb =>
      cases c with
      | mk lc =>
        show String.mk (la ++ lb ++ lc) = String.mk (la ++ (lb ++ lc))
        rw [List.append_assoc]

/-- The empty string is a left identity for append. -/
theorem strEmptyAppend (s : String) : "" ++ s = s := by
  cases s with
  | mk l => rfl

/-- Appending a non-empty string on the right gives a non-empty string. -/
theorem strAppend_ne_empty_right (a b : String) (hb : b ≠ "") : a ++ b ≠ "" := by
  intro h
  have hd := congrArg String.data h
  rw [String.data_append] at hd
  exact hb ((strEmptyIffData b).mpr (List.append_eq_nil.mp hd).2)

/-- The rendering of a non-empty unclosed-tag list is non-empty. -/
theorem renderUnclosed_ne_empty :
    ∀ (x : Option String × String) (t : List (Option String × String)),
      renderUnclosed (x :: t) ≠ ""
  | (ns, nm), [] => by
    rw [renderUnclosed]
    exact strAppend_ne_empty_right _ _ (by decide)
  | (ns, nm), p :: t => by
    rw [renderUnclosed]
    exact strAppend_ne_empty_right _ _ (renderUnclosed_ne_empty p t)

/-- The accumulator form of the `close()` loop, for a non-empty
accumulator. -/
theorem closeLoop_go :
    ∀ (l : List (Option String × String)) (acc : String), acc ≠ "" → l ≠ [] →
      closeLoop l acc = acc ++ ", " ++ renderUnclosed l
  | [], _, _, hl => absurd rfl hl
  | (ns, nm) :: rest, acc, hacc, _ => by
    rw [closeLoop, if_pos hacc]
    cases rest with
    | nil =>
      rw [closeLoop, renderUnclosed]
      simp only [strAppendAssoc]
    | cons p t =>
      rw [closeLoop_go (p :: t) _
          (strAppend_ne_empty_right _ _ (by decide)) (by simp),
        renderUnclosed]
      simp only [strAppendAssoc]

/-- `close()`'s loop started on the empty accumulator computes the
spec-side rendering. -/
theorem closeLoop_renders :
    ∀ l : List (Option String × String), closeLoop l "" = renderUnclosed l
  | [] => rfl
  | (ns, nm) :: rest => by
    rw [closeLoop, if_neg (fun h => h rfl)]
    cases rest with
    | nil =>
      rw [closeLoop, renderUnclosed, strEmptyAppend]
    | cons p t =>
      rw [closeLoop_go (p :: t) _
          (strAppend_ne_empty_right _ _ (by decide)) (by simp),
        renderUnclosed, strEmptyAppend]

theorem framePreserved_refl (st : Writer) : framePreserved st st :=
  ⟨rfl, rfl, rfl, rfl, rfl, rfl, rfl, rfl, rfl⟩

theorem framePreserved_trans {a b c : Writer} (h1 : framePreserved a b)
    (h2 : framePreserved b c) : framePreserved a c := by
  obtain ⟨p1, i1, n1, e1, m1, s1, el1, a1, o1⟩ := h1
  obtain ⟨p2, i2, n2, e2, m2, s2, el2, a2, o2⟩ := h2
  exact ⟨p2.trans p1, i2.trans i1, n2.trans n1, e2.trans e1, m2.trans m1,
    s2.trans s1, el2.trans el1, a2.trans a1, o2.trans o1⟩

theorem framePreserved_pyWrite (st : Writer) (t : String) :
    framePreserved st (pyWrite st t) :=
  ⟨rfl, rfl, rfl, rfl, rfl, rfl, rfl, rfl, rfl⟩

theorem framePreserved_writeIndent (st : Writer) :
    framePreserved st (writeIndent st) :=
  framePreserved_pyWrite st _

theorem framePreserved_writePrettyIndent (st : Writer) :
    framePreserved st (writePrettyIndent st) := by
  unfold writePrettyIndent
  split
  · exact framePreserved_writeIndent st
  · exact framePreserved_refl st

theorem framePreserved_newlineOp (st : Writer) :
    framePreserved st (newlineOp st) :=
  framePreserved_pyWrite st _

theorem framePreserved_writePrettyNewline (st : Writer) :
    framePreserved st (writePrettyNewline st) := by
  unfold writePrettyNewline
  split
  · exact framePreserved_newlineOp st
  · exact framePreserved_refl st

theorem framePreserved_writeEscaped (st : Writer) (t : String) :
    framePreserved st (writeEscaped st t) :=
  framePreserved_pyWrite st _

theorem framePreserved_writeAttrs :
    ∀ (l : List (String × String)) (st : Writer),
      framePreserved st (writeAttrs st l)
  | [], st => framePreserved_refl st
  | (n, v) :: rest, st => by
    rw [writeAttrs]
    exact framePreserved_trans (framePreserved_pyWrite st _)
      (framePreserved_writeAttrs rest _)

theorem framePreserved_textLinesLoop :
    ∀ (lines : List (List Char)) (st : Writer),
      framePreserved st (textLinesLoop lines st)
  | [], st => framePreserved_refl st
  | line :: rest, st => by
    rw [textLinesLoop]
    refine framePreserved_trans (framePreserved_writeIndent st)
      (framePreserved_trans (framePreserved_writeEscaped _ _)
        (framePreserved_trans (framePreserved_newlineOp _)
          (framePreserved_textLinesLoop rest _)))

theorem framePreserved_commentLinesLoop :
    ∀ (lines : List (List Char)) (st : Writer),
      framePreserved st (commentLinesLoop lines st)
  | [], st => framePreserved_refl st
  | line :: rest, st => by
    rw [commentLinesLoop]
    have h1 : framePreserved st (if st.pretty then writeIndent st else st) := by
      split
      · exact framePreserved_writeIndent st
      · exact framePreserved_refl st
    refine framePreserved_trans h1
      (framePreserved_trans (framePreserved_writeEscaped _ _)
        (framePreserved_trans (framePreserved_newlineOp _)
          (framePreserved_commentLinesLoop rest _)))

theorem framePreserved_rawBlock (st : Writer) (name start finish text : String) :
    framePreserved st (rawBlock st name start finish text).1 := by
  unfold rawBlock
  split
  · exact framePreserved_refl st
  · exact framePreserved_trans (framePreserved_writePrettyIndent st)
      (framePreserved_trans (framePreserved_pyWrite _ _)
        (framePreserved_trans (framePreserved_pyWrite _ _)
          (framePreserved_trans (framePreserved_pyWrite _ _)
            (framePreserved_writePrettyNewline _))))

theorem sameExceptNs_trans {a b c : Writer} (h1 : sameExceptNs a b)
    (h2 : sameExceptNs b c) : sameExceptNs a c := by
  obtain ⟨o1, p1, i1, n1, e1, el1, op1, c1⟩ := h1
  obtain ⟨o2, p2, i2, n2, e2, el2, op2, c2⟩ := h2
  exact ⟨o2.trans o1, p2.trans p1, i2.trans i1, n2.trans n1, e2.trans e1,
    el2.trans el1, op2.trans op1, c2.trans c1⟩

/-- The drain loop of `_writeTag` touches only the namespace fields. -/
theorem drainPending_sameExceptNs :
    ∀ (l : List (String × String)) (st : Writer) (attrs : List (String × String)),
      sameExceptNs st (drainPending l st attrs).1
  | [], st, attrs => ⟨rfl, rfl, rfl, rfl, rfl, rfl, rfl, rfl⟩
  | (n, uri) :: rest, st, attrs => by
    rw [drainPending]
    split_ifs <;>
      first
        | exact ⟨rfl, rfl, rfl, rfl, rfl, rfl, rfl, rfl⟩
        | exact sameExceptNs_trans ⟨rfl, rfl, rfl, rfl, rfl, rfl, rfl, rfl⟩
            (drainPending_sameExceptNs rest _ _)

theorem framePreserved_write_of {st a : Writer} (h : framePreserved st a)
    (t : String) : framePreserved st (pyWrite a t) :=
  framePreserved_trans h (framePreserved_pyWrite a t)

theorem framePreserved_ite_space_of {st a : Writer} (h : framePreserved st a) :
    framePreserved st (if a.pretty then pyWrite a " " else a) := by
  split
  · exact framePreserved_write_of h " "
  · exact h

/-- The emission tail of `_writeTag` only writes: the frame is
preserved. -/
theorem framePreserved_emitTag (st : Writer) (element : String)
    (close : CloseMode) (attrs : List (String × String)) :
    framePreserved st (emitTag st element close attrs) := by
  have h2 : framePreserved st
      (if st.pretty then pyWrite st (repeatStr st.indent st.elementStack.length)
       else st) := by
    split
    · exact framePreserved_pyWrite _ _
    · exact framePreserved_refl _
  have h3 := framePreserved_write_of h2 "<"
  rcases close with _ | _ | _
  · have h5 := framePreserved_write_of h3 element
    have h6 := framePreserved_trans h5 (framePreserved_writeAttrs (sortAttrs attrs) _)
    have h8 := framePreserved_write_of h6 ">"
    exact framePreserved_trans h8 (framePreserved_writePrettyNewline _)
  · have h4 := framePreserved_write_of h3 "/"
    have h5 := framePreserved_write_of h4 element
    have h6 := framePreserved_trans h5 (framePreserved_writeAttrs (sortAttrs attrs) _)
    have h8 := framePreserved_write_of h6 ">"
    exact framePreserved_trans h8 (framePreserved_writePrettyNewline _)
  · have h5 := framePreserved_write_of h3 element
    have h6 := framePreserved_trans h5 (framePreserved_writeAttrs (sortAttrs attrs) _)
    have h7 := framePreserved_write_of (framePreserved_ite_space_of h6) "/"
    have h8 := framePreserved_write_of h7 ">"
    exact framePreserved_trans h8 (framePreserved_writePrettyNewline _)

/-- `_writeTag` never changes the element stack (the drain loop and the
emission both leave it alone). -/
theorem writeTag_elementStack (st : Writer) (ns : Option String) (name : String)
    (close : CloseMode) (attributes : List (String × String)) :
    (writeTag st ns name close attributes).1.elementStack = st.elementStack := by
  unfold writeTag
  split
  · rfl
  · rcases close with _ | _ | _
    · rcases hdr : drainPending st.namespacesToAdd st [] with ⟨st1, nsAttrs, err⟩
      have hst1 : st1.elementStack = st.elementStack := by
        have h2 := drainPending_sameExceptNs st.namespacesToAdd st []
        rw [hdr] at h2
        exact h2.2.2.2.2.2.1
      rcases err with _ | e
      · show (match convertAttributes st1 attributes nsAttrs with
          | Except.error e => (st1, some e)
          | Except.ok actualAttributes =>
            match validateNamespaceItem st1 "tag" ns name with
            | some e => (st1, some e)
            | none =>
              (emitTag st1 (elementName name ns) CloseMode.cnone actualAttributes,
                none)).1.elementStack = st.elementStack
        rcases hconv : convertAttributes st1 attributes nsAttrs with e | actualAttributes
        · exact hst1
        · rcases hval : validateNamespaceItem st1 "tag" ns name with _ | e
          · exact ((framePreserved_emitTag st1 _ _ _).2.2.2.2.2.2.1).trans hst1
          · exact hst1
      · exact hst1
    · rcases hp : st.namespacesToAdd with _ | ⟨p, rest⟩
      · show (match convertAttributes st attributes [] with
          | Except.error e => (st, some e)
          | Except.ok actualAttributes =>
            match validateNamespaceItem st "tag" ns name with
            | some e => (st, some e)
            | none =>
              (emitTag st (elementName name ns) CloseMode.catStart actualAttributes,
                none)).1.elementStack = st.elementStack
        rcases hconv : convertAttributes st attributes [] with e | actualAttributes
        · rfl
        · rcases hval : validateNamespaceItem st "tag" ns name with _ | e
          · exact (framePreserved_emitTag st _ _ _).2.2.2.2.2.2.1
          · rfl
      · rfl
    · rcases hdr : drainPending st.namespacesToAdd st [] with ⟨st1, nsAttrs, err⟩
      have hst1 : st1.elementStack = st.elementStack := by
        have h2 := drainPending_sameExceptNs st.namespacesToAdd st []
        rw [hdr] at h2
        exact h2.2.2.2.2.2.1
      rcases err with _ | e
      · show (match convertAttributes st1 attributes nsAttrs with
          | Except.error e => (st1, some e)
          | Except.ok actualAttributes =>
            match validateNamespaceItem st1 "tag" ns name with
            | some e => (st1, some e)
            | none =>
              (emitTag st1 (elementName name ns) CloseMode.catEnd actualAttributes,
                none)).1.elementStack = st.elementStack
        rcases hconv : convertAttributes st1 attributes nsAttrs with e | actualAttributes
        · exact hst1
        · rcases hval : validateNamespaceItem st1 "tag" ns name with _ | e
          · exact ((framePreserved_emitTag st1 _ _ _).2.2.2.2.2.2.1).trans hst1
          · exact hst1
      · exact hst1

/-- `endTag` on an empty stack raises the stack-underflow error. -/
theorem endTag_nil (st : Writer) (e : Option String)
    (h : st.elementStack = []) :
    XmlWriter.endTag st e = (st, some "tag stack must not be empty") := by
  unfold XmlWriter.endTag
  rw [h]

/-- `endTag()` without an expected name on a non-empty stack: pop, discard
the namespace entry of the vacated depth, and write the end tag. -/
theorem endTag_cons_none (st : Writer) (ns : Option String) (nm : String)
    (rest : List (Option String × String))
    (hstack : st.elementStack = (ns, nm) :: rest) :
    XmlWriter.endTag st none =
      writeTag
        { st with
            elementStack := rest,
            namespaces := alDel st.namespaces ((ns, nm) :: rest).length }
        ns nm CloseMode.catStart [] := by
  unfold XmlWriter.endTag
  rw [hstack]

/-- `endTag` with a non-empty expected name equal to the innermost tag's
qualified name behaves like `endTag()`. -/
theorem endTag_cons_some_match (st : Writer) (ns : Option String) (nm : String)
    (rest : List (Option String × String)) (exp : String)
    (hstack : st.elementStack = (ns, nm) :: rest) (hexp : exp ≠ "")
    (hqn : joinPossiblyQualifiedName ns nm = exp) :
    XmlWriter.endTag st (some exp) =
      writeTag
        { st with
            elementStack := rest,
            namespaces := alDel st.namespaces ((ns, nm) :: rest).length }
        ns nm CloseMode.catStart [] := by
  unfold XmlWriter.endTag
  rw [hstack]
  show (match (if exp = "" then (none : Option String)
      else if joinPossiblyQualifiedName ns nm = exp then none
      else some ("tag name must be " ++ exp ++ " but is " ++
        joinPossiblyQualifiedName ns nm)) with
    | some msg => ({ st with elementStack := (ns, nm) :: rest }, some msg)
    | none =>
      writeTag
        { st with
            elementStack := rest,
            namespaces := alDel st.namespaces ((ns, nm) :: rest).length }
        ns nm CloseMode.catStart []) = _
  rw [if_neg hexp, if_pos hqn]

/-- `endTag` with an empty expected name skips the check entirely
(Python truthiness). -/
theorem endTag_cons_some_empty (st : Writer) (ns : Option String) (nm : String)
    (rest : List (Option String × String)) (exp : String)
    (hstack : st.elementStack = (ns, nm) :: rest) (hexp : exp = "") :
    XmlWriter.endTag st (some exp) =
      writeTag
        { st with
            elementStack := rest,
            namespaces := alDel st.namespaces ((ns, nm) :: rest).length }
        ns nm CloseMode.catStart [] := by
  unfold XmlWriter.endTag
  rw [hstack]
  show (match (if exp = "" then (none : Option String)
      else if joinPossiblyQualifiedName ns nm = exp then none
      else some ("tag name must be " ++ exp ++ " but is " ++
        joinPossiblyQualifiedName ns nm)) with
    | some msg => ({ st with elementStack := (ns, nm) :: rest }, some msg)
    | none =>
      writeTag
        { st with
            elementStack := rest,
            namespaces := alDel st.namespaces ((ns, nm) :: rest).length }
        ns nm CloseMode.catStart []) = _
  rw [if_pos hexp]

/-- `endTag` with a wrong expected name: the popped entry is pushed back
(restoring the state exactly) and the mismatch error is raised before
anything is written. -/
theorem endTag_cons_some_mismatch (st : Writer) (ns : Option String)
    (nm : String) (rest : List (Option String × String)) (exp : String)
    (hstack : st.elementStack = (ns, nm) :: rest) (hexp : exp ≠ "")
    (hqn : joinPossiblyQualifiedName ns nm ≠ exp) :
    XmlWriter.endTag st (some exp) =
      (st, some ("tag name must be " ++ exp ++ " but is " ++
        joinPossiblyQualifiedName ns nm)) := by
  unfold XmlWriter.endTag
  rw [hstack]
  show (match (if exp = "" then (none : Option String)
      else if joinPossiblyQualifiedName ns nm = exp then none
      else some ("tag name must be " ++ exp ++ " but is " ++
        joinPossiblyQualifiedName ns nm)) with
    | some msg => ({ st with elementStack := (ns, nm) :: rest }, some msg)
    | none =>
      writeTag
        { st with
            elementStack := rest,
            namespaces := alDel st.namespaces ((ns, nm) :: rest).length }
        ns nm CloseMode.catStart []) = _
  rw [if_neg hexp, if_neg hqn]
  rw [← hstack]

/-- A successful end-tag write: with a non-empty name, no pending
namespace declarations and a visible namespace, `_writeTag` in end-tag
mode just emits. -/
theorem writeTag_catStart_success (st : Writer) (ns : Option String)
    (nm : String) (hname : nm ≠ "") (hpend : st.namespacesToAdd = [])
    (hval : validateNamespaceItem st "tag" ns nm = none) :
    writeTag st ns nm CloseMode.catStart [] =
      (emitTag st (elementName nm ns) CloseMode.catStart [], none) := by
  unfold writeTag
  rw [if_neg hname, hpend]
  show (match validateNamespaceItem st "tag" ns nm with
    | some e => (st, some e)
    | none => (emitTag st (elementName nm ns) CloseMode.catStart [], none)) = _
  rw [hval]

/-- A successful `endTag` pops exactly one entry. -/
theorem endTag_success_stack (st : Writer) (e : Option String)
    (h : (XmlWriter.endTag st e).2 = none) :
    ∃ top rest, st.elementStack = top :: rest ∧
      (XmlWriter.endTag st e).1.elementStack = rest := by
  rcases hstack : st.elementStack with _ | ⟨⟨ns, nm⟩, rest⟩
  · rw [endTag_nil st e hstack] at h
    exact absurd h (by simp)
  · refine ⟨(ns, nm), rest, rfl, ?_⟩
    rcases e with _ | exp
    · rw [endTag_cons_none st ns nm rest hstack, writeTag_elementStack]
    · by_cases hexp : exp = ""
      · rw [endTag_cons_some_empty st ns nm rest exp hstack hexp,
          writeTag_elementStack]
      · by_cases hqn : joinPossiblyQualifiedName ns nm = exp
        · rw [endTag_cons_some_match st ns nm rest exp hstack hexp hqn,
            writeTag_elementStack]
        · rw [endTag_cons_some_mismatch st ns nm rest exp hstack hexp hqn] at h
          exact absurd h (by simp)

/-- C6: `close()` succeeds exactly when the element stack is empty; with
N ≥ 1 tags still open it fails with a message listing all N unclosed tags
innermost first, comma-joined, each as `</ns:name>` (or `</name>`); and
each successful `startTag` pushes exactly one entry while each successful
`endTag` pops exactly one, so opening N tags and closing exactly N leaves
the stack empty and `close()` succeeds. -/
theorem claim6_close_stack_discipline (st : Writer) :
    ((XmlWriter.close st).2 = none ↔ st.elementStack = []) ∧
    (st.elementStack ≠ [] →
      (XmlWriter.close st).2 =
        some ("missing end tags must be added: " ++
          renderUnclosed st.elementStack)) ∧
    (∀ q a, (XmlWriter.startTag st q a).2 = none →
      (XmlWriter.startTag st q a).1.elementStack.length =
        st.elementStack.length + 1) ∧
    (∀ e, (XmlWriter.endTag st e).2 = none →
      (XmlWriter.endTag st e).1.elementStack.length + 1 =
        st.elementStack.length) := by
  refine ⟨?_, ?_, ?_, ?_⟩
  · unfold XmlWriter.close
    rw [closeLoop_renders]
    rcases hstack : st.elementStack with _ | ⟨x, t⟩
    · simp [renderUnclosed]
    · rw [if_pos (renderUnclosed_ne_empty x t)]
      simp
  · intro hne
    unfold XmlWriter.close
    rw [closeLoop_renders]
    rcases hstack : st.elementStack with _ | ⟨x, t⟩
    · exact absurd hstack hne
    · rw [if_pos (renderUnclosed_ne_empty x t)]
  · intro q a hsucc
    unfold XmlWriter.startTag at hsucc ⊢
    rcases hsp : splitPossiblyQualifiedName "tag name" q with e | ⟨ns, nm⟩ <;>
      rw [hsp] at hsucc
    · exact absurd hsucc (by simp)
    · replace hsucc : (match writeTag st ns nm CloseMode.cnone a with
        | (st1, some e) => (st1, some e)
        | (st1, none) =>
          ({ st1 with elementStack := (ns, nm) :: st1.elementStack },
            none)).2 = none := hsucc
      show (match writeTag st ns nm CloseMode.cnone a with
        | (st1, some e) => (st1, some e)
        | (st1, none) =>
          ({ st1 with elementStack := (ns, nm) :: st1.elementStack },
            none)).1.elementStack.length = st.elementStack.length + 1
      rcases hwt : writeTag st ns nm CloseMode.cnone a with ⟨st1, _ | e⟩
      · have h2 := writeTag_elementStack st ns nm CloseMode.cnone a
        rw [hwt] at h2
        show ((ns, nm) :: st1.elementStack).length = st.elementStack.length + 1
        rw [List.length_cons, h2]
      · rw [hwt] at hsucc
        exact absurd hsucc (by simp)
  · intro e hsucc
    obtain ⟨top, rest, hstack, hres⟩ := endTag_success_stack st e hsucc
    rw [hres, hstack, List.length_cons]

/-- Witness for C6: closing the two-tag writer fails with the rendered
message. -/
theorem claim6_close_stack_discipline_witness :
    (XmlWriter.close sampleOpenWriter).2 =
      some ("missing end tags must be added: " ++
        renderUnclosed sampleOpenWriter.elementStack) :=
  (claim6_close_stack_discipline sampleOpenWriter).2.1 (by decide)

/-- The namespace of the element popped by a successful `endTag` is still
visible for the end-tag write when `nsVisibleForEndTag` holds. -/
theorem validate_of_nsVisible (st : Writer) (ns : Option String) (nm : String)
    (rest : List (Option String × String))
    (h : nsVisibleForEndTag st ns rest = true) :
    validateNamespaceItem
      { st with
        elementStack := rest,
        namespaces := alDel st.namespaces ((ns, nm) :: rest).length }
      "tag" ns nm = none := by
  rcases ns with _ | s
  · rfl
  · replace h : (decide (s = "") ||
        namespaceFoundAt (alDel st.namespaces (rest.length + 1)) s
          rest.length) = true := h
    show (if s = "" then (none : Option String)
      else if namespaceFoundAt (alDel st.namespaces (rest.length + 1)) s
          rest.length = true then none
      else some ("namespace '" ++ s ++ "' for " ++ "tag" ++ " '" ++ nm ++
        "' must be added before use")) = none
    by_cases hs : s = ""
    · rw [if_pos hs]
    · rw [if_neg hs]
      have h2 : namespaceFoundAt (alDel st.namespaces (rest.length + 1)) s
          rest.length = true := by
        simp only [Bool.or_eq_true, decide_eq_true_eq] at h
        rcases h with h1 | h1
        · exact absurd h1 hs
        · exact h1
      rw [if_pos h2]

/-- C5: `endTag` with an expected qualified name different from the
innermost open element's qualified name fails with an error naming both
the expected and the actual name, emits nothing and leaves the writer
state (the stack in particular) exactly as it was — the popped entry is
pushed back — so that a subsequent `endTag` with the correct name
succeeds. -/
theorem claim5_endTag_mismatch (st : Writer) (ns : Option String) (nm : String)
    (rest : List (Option String × String)) (exp : String)
    (hstack : st.elementStack = (ns, nm) :: rest)
    (hexp : exp ≠ "")
    (hqn : joinPossiblyQualifiedName ns nm ≠ exp)
    (hnm : nm ≠ "")
    (hpend : st.namespacesToAdd = [])
    (hvis : nsVisibleForEndTag st ns rest = true) :
    XmlWriter.endTag st (some exp) =
      (st, some ("tag name must be " ++ exp ++ " but is " ++
        joinPossiblyQualifiedName ns nm)) ∧
    (XmlWriter.endTag st (some (joinPossiblyQualifiedName ns nm))).2 = none := by
  refine ⟨endTag_cons_some_mismatch st ns nm rest exp hstack hexp hqn, ?_⟩
  have hpend2 : ({ st with
      elementStack := rest,
      namespaces := alDel st.namespaces ((ns, nm) :: rest).length } :
        Writer).namespacesToAdd = [] := hpend
  by_cases hj : joinPossiblyQualifiedName ns nm = ""
  · rw [endTag_cons_some_empty st ns nm rest _ hstack hj,
      writeTag_catStart_success _ ns nm hnm hpend2
        (validate_of_nsVisible st ns nm rest hvis)]
  · rw [endTag_cons_some_match st ns nm rest _ hstack hj rfl,
      writeTag_catStart_success _ ns nm hnm hpend2
        (validate_of_nsVisible st ns nm rest hvis)]

/-- Witness for C5: `endTag("xhtml:doby")` with `xhtml:body` innermost. -/
theorem claim5_endTag_mismatch_witness :
    XmlWriter.endTag sampleNsWriter (some "xhtml:doby") =
      (sampleNsWriter, some ("tag name must be xhtml:doby but is " ++
        joinPossiblyQualifiedName (some "xhtml") "body")) ∧
    (XmlWriter.endTag sampleNsWriter
      (some (joinPossiblyQualifiedName (some "xhtml") "body"))).2 = none :=
  claim5_endTag_mismatch sampleNsWriter (some "xhtml") "body" [(none, "html")]
    "xhtml:doby" rfl (by decide) (by decide) (by decide) rfl (by decide)

/-- C9: `comment(t)` fails for every `t` containing the two-character
sequence `--`; `comment("")` with `embedInBlanks=False` fails; and
`comment("")` with default settings (embedInBlanks on, pretty printing on,
no open elements) succeeds and writes exactly `<!--  -->` — two blanks
between the markers — followed by a newline. -/
theorem claim9_comment_guards (st : Writer) (t : String) (emb : Bool) :
    (pySubstr "--".toList t.toList = true →
      XmlWriter.comment st t emb =
        (st, some "text for comment must not contain \"--\"")) ∧
    (XmlWriter.comment st "" false =
      (st, some "text for comment must not be empty, or option embedInBlanks=True must be set")) ∧
    (st.pretty = true → st.elementStack = [] →
      (XmlWriter.comment st "" true).2 = none ∧
      (XmlWriter.comment st "" true).1.output =
        st.output ++ ["", "<!--", " ", "", " ", "-->", st.newline] ∧
      String.join ["", "<!--", " ", "", " ", "-->", st.newline] =
        "<!--  -->" ++ st.newline) := by
  refine ⟨?_, rfl, ?_⟩
  · intro hsub
    have hc1 : ¬((!emb && decide (t = "")) = true) := by
      simp only [Bool.and_eq_true, decide_eq_true_eq]
      rintro ⟨-, ht⟩
      subst ht
      exact absurd hsub (by decide)
    unfold XmlWriter.comment
    rw [if_neg hc1, if_pos hsub]
  · intro hpretty hstack
    rcases st with ⟨out, pretty, ind, nl, enc, nss, nsk, stack, pend, isop, flag⟩
    replace hpretty : pretty = true := hpretty
    replace hstack : stack = [] := hstack
    subst hpretty
    subst hstack
    refine ⟨rfl, ?_, rfl⟩
    show ((((((out ++ [""]) ++ ["<!--"]) ++ [" "]) ++ [""]) ++ [" "]) ++ ["-->"])
        ++ [nl] = out ++ ["", "<!--", " ", "", " ", "-->", nl]
    simp [List.append_assoc]

/-- Witness for C9 at `t = "a--b"` and the default-settings empty
comment. -/
theorem claim9_comment_guards_witness :
    XmlWriter.comment freshWriter "a--b" true =
      (freshWriter, some "text for comment must not contain \"--\"") ∧
    (XmlWriter.comment freshWriter "" true).2 = none ∧
    (XmlWriter.comment freshWriter "" true).1.output =
      freshWriter.output ++ ["", "<!--", " ", "", " ", "-->", freshWriter.newline] :=
  ⟨(claim9_comment_guards freshWriter "a--b" true).1 (by decide),
   ((claim9_comment_guards freshWriter "a--b" true).2.2 rfl rfl).1,
   ((claim9_comment_guards freshWriter "a--b" true).2.2 rfl rfl).2.1⟩

theorem framePreserved_newlineOp_of {st a : Writer} (h : framePreserved st a) :
    framePreserved st (newlineOp a) :=
  framePreserved_trans h (framePreserved_newlineOp a)

theorem framePreserved_wpi_of {st a : Writer} (h : framePreserved st a) :
    framePreserved st (writePrettyIndent a) :=
  framePreserved_trans h (framePreserved_writePrettyIndent a)

theorem framePreserved_wpn_of {st a : Writer} (h : framePreserved st a) :
    framePreserved st (writePrettyNewline a) :=
  framePreserved_trans h (framePreserved_writePrettyNewline a)

theorem framePreserved_escaped_of {st a : Writer} (h : framePreserved st a)
    (t : String) : framePreserved st (writeEscaped a t) :=
  framePreserved_trans h (framePreserved_writeEscaped a t)

theorem framePreserved_cll_of {st a : Writer} (h : framePreserved st a)
    (lines : List (List Char)) : framePreserved st (commentLinesLoop lines a) :=
  framePreserved_trans h (framePreserved_commentLinesLoop lines a)

/-- C10: the content operations `text`, `comment`, `cdata`,
`processingInstruction` and `raw` never modify the writer's scoping state
or configuration: for every input — whether the call succeeds or fails —
the element stack, the depth-keyed namespace map (and its string-keyed
part), the pending-namespace queue, and every configuration field
including the open flag are the same after the call as before it; only the
sink and the has-written-content flag may change. -/
theorem claim10_content_ops_frame (st : Writer) (t target s : String)
    (emb : Bool) :
    framePreserved st (XmlWriter.text st t).1 ∧
    framePreserved st (XmlWriter.comment st t emb).1 ∧
    framePreserved st (XmlWriter.cdata st t).1 ∧
    framePreserved st (XmlWriter.processingInstruction st target t).1 ∧
    framePreserved st (XmlWriter.raw st s).1 := by
  refine ⟨?_, ?_, ?_, ?_, ?_⟩
  · unfold XmlWriter.text
    split
    · exact framePreserved_textLinesLoop _ _
    · exact framePreserved_writeEscaped _ _
  · unfold XmlWriter.comment
    split
    · exact framePreserved_refl st
    · split
      · exact framePreserved_refl st
      · have hB := framePreserved_write_of (framePreserved_writePrettyIndent st)
          "<!--"
        dsimp only
        split
        · apply framePreserved_wpn_of
          apply framePreserved_write_of
          apply framePreserved_wpi_of
          apply framePreserved_cll_of
          split
          · exact framePreserved_newlineOp_of hB
          · split
            · exact framePreserved_write_of hB " "
            · exact hB
        · apply framePreserved_wpn_of
          apply framePreserved_write_of
          split
          · apply framePreserved_write_of
            apply framePreserved_escaped_of
            split
            · exact framePreserved_write_of hB " "
            · exact hB
          · apply framePreserved_escaped_of
            split
            · exact framePreserved_write_of hB " "
            · exact hB
  · exact framePreserved_rawBlock _ _ _ _ _
  · unfold XmlWriter.processingInstruction
    split
    · exact framePreserved_refl st
    · exact framePreserved_rawBlock _ _ _ _ _
  · exact framePreserved_pyWrite _ _

theorem alGet_cons_ne (k' : Nat) (v : List (String × String)) (m : List (Nat × List (String × String)))
    (k : Nat) (h : (k' == k) = false) : alGet ((k', v) :: m) k = alGet m k := by
  unfold alGet
  rw [List.find?_cons_of_neg]
  simp [h]

theorem alGet_alDel_self :
    ∀ (m : List (Nat × List (String × String))) (k : Nat),
      alGet (alDel m k) k = none
  | [], _ => rfl
  | (k', v) :: m, k => by
    unfold alDel
    rw [List.filter_cons]
    cases hk : (k' == k) with
    | true => simp only [hk, Bool.not_true, if_false]; exact alGet_alDel_self m k
    | false =>
      simp only [hk, Bool.not_false, if_true]
      rw [alGet_cons_ne k' v _ k hk]
      exact alGet_alDel_self m k

theorem alGet_alDel_ne :
    ∀ (m : List (Nat × List (String × String))) (k j : Nat), j ≠ k →
      alGet (alDel m k) j = alGet m j
  | [], _, _, _ => rfl
  | (k', v) :: m, k, j, hjk => by
    unfold alDel
    rw [List.filter_cons]
    cases hk : (k' == k) with
    | true =>
      simp only [hk, Bool.not_true, if_false]
      have hk2 : (k' == j) = false := by
        rw [beq_eq_false_iff_ne]
        simp only [beq_iff_eq] at hk
        omega
      rw [alGet_cons_ne k' v m j hk2]
      exact alGet_alDel_ne m k j hjk
    | false =>
      simp only [hk, Bool.not_false, if_true]
      cases hj : (k' == j) with
      | true =>
        unfold alGet
        rw [List.find?_cons_of_pos, List.find?_cons_of_pos] <;> simp [hj]
      | false =>
        rw [alGet_cons_ne k' v _ j hj, alGet_cons_ne k' v m j hj]
        exact alGet_alDel_ne m k j hjk

/-- Deleting the scope entry at depth `k` does not change the scope search
below `k`. -/
theorem namespaceFoundAt_alDel (m : List (Nat × List (String × String)))
    (ns : String) (k : Nat) :
    ∀ i, i < k → namespaceFoundAt (alDel m k) ns i = namespaceFoundAt m ns i
  | 0, hik => by
    unfold namespaceFoundAt
    rw [alGet_alDel_ne m k 0 (by omega)]
  | i + 1, hik => by
    unfold namespaceFoundAt
    rw [alGet_alDel_ne m k (i + 1) (by omega),
      namespaceFoundAt_alDel m ns k i (by omega)]

theorem pyFindColon_append :
    ∀ (p nm : List Char), ':' ∉ p →
      pyFindColon (p ++ ':' :: nm) = some p.length
  | [], nm, _ => by simp [pyFindColon]
  | c :: p, nm, h => by
    have hc : ¬(c = ':') := fun hc => h (hc ▸ List.mem_cons_self c p)
    have hp : ':' ∉ p := fun hm => h (List.mem_cons_of_mem c hm)
    rw [List.cons_append]
    show (if c = ':' then some 0 else (pyFindColon (p ++ ':' :: nm)).map (· + 1)) =
      some (c :: p).length
    rw [if_neg hc, pyFindColon_append p nm hp]
    rfl

theorem take_length_append (p q : List Char) : (p ++ q).take p.length = p := by
  induction p with
  | nil => rfl
  | cons c p ih => simp [ih]

theorem drop_length_succ_append (p : List Char) (c : Char) (q : List Char) :
    (p ++ c :: q).drop (p.length + 1) = q := by
  induction p with
  | nil => rfl
  | cons a p ih => simp [ih]

/-- Splitting `p ++ ":" ++ nm` for a colon-free non-empty `p` and
non-empty `nm` (character-list level). -/
theorem splitQNCore_concat (label : String) (p nm : List Char) (hp : p ≠ [])
    (hpc : ':' ∉ p) (hnm : nm ≠ []) :
    splitQNCore label (p ++ ':' :: nm) = .ok (some p, nm) := by
  unfold splitQNCore
  rw [pyFindColon_append p nm hpc]
  show (if (p ++ ':' :: nm).take p.length = [] then
      Except.error "namespace part of %s must not be empty"
    else if (p ++ ':' :: nm).drop (p.length + 1) = [] then
      Except.error "name part of %s must not be empty"
    else Except.ok (some ((p ++ ':' :: nm).take p.length),
      (p ++ ':' :: nm).drop (p.length + 1))) = Except.ok (some p, nm)
  rw [take_length_append p (':' :: nm), drop_length_succ_append p ':' nm,
    if_neg hp, if_neg hnm]

theorem strMkToList (s : String) : String.mk s.toList = s := by
  cases s
  rfl

/-- Splitting `p ++ ":" ++ nm` for a colon-free non-empty `p` and
non-empty `nm` (string level). -/
theorem splitPossiblyQualifiedName_concat (p nm : String) (hp : p ≠ "")
    (hpc : ':' ∉ p.toList) (hnm : nm ≠ "") :
    splitPossiblyQualifiedName "tag name" (p ++ ":" ++ nm) = .ok (some p, nm) := by
  unfold splitPossiblyQualifiedName
  have hlist : (p ++ ":" ++ nm).toList = p.toList ++ ':' :: nm.toList := by
    show (p ++ ":" ++ nm).data = p.data ++ ':' :: nm.data
    rw [String.data_append, String.data_append]
    simp
  rw [hlist, splitQNCore_concat "tag name" p.toList nm.toList
    (fun h => hp ((strEmptyIffData p).mpr h)) hpc
    (fun h => hnm ((strEmptyIffData nm).mpr h))]
  show Except.ok (some (String.mk p.toList), String.mk nm.toList) =
    Except.ok (some p, nm)
  rw [strMkToList, strMkToList]

/-- A start-tag write whose namespace is not visible fails with the
namespace error (with no pending declarations to drain). -/
theorem writeTag_cnone_ns_error (st : Writer) (p nm : String)
    (hnm : nm ≠ "") (hpend : st.namespacesToAdd = []) (hp : p ≠ "")
    (hfound : namespaceFoundAt st.namespaces p st.elementStack.length = false) :
    writeTag st (some p) nm CloseMode.cnone [] =
      (st, some ("namespace '" ++ p ++ "' for " ++ "tag" ++ " '" ++ nm ++
        "' must be added before use")) := by
  unfold writeTag
  rw [if_neg hnm, hpend]
  show (match validateNamespaceItem st "tag" (some p) nm with
    | some e => (st, some e)
    | none => (emitTag st (elementName nm (some p)) CloseMode.cnone [], none)) = _
  have hval : validateNamespaceItem st "tag" (some p) nm =
      some ("namespace '" ++ p ++ "' for " ++ "tag" ++ " '" ++ nm ++
        "' must be added before use") := by
    show (if p = "" then (none : Option String)
      else if namespaceFoundAt st.namespaces p st.elementStack.length = true
        then none
      else some ("namespace '" ++ p ++ "' for " ++ "tag" ++ " '" ++ nm ++
        "' must be added before use")) = _
    rw [if_neg hp, if_neg (by simp [hfound])]
  rw [hval]

/-- C4: when a namespace prefix `p` was declared while a child element was
the innermost open element and flushed to a tag inside that child, it is
recorded at the child's depth; the child's `endTag` succeeds, discards the
depth entry recording `p`, and a later `startTag` using `p` in its tag
name fails with the namespace error. -/
theorem claim4_child_scope_discarded (st : Writer) (p nm ename : String)
    (rest : List (Option String × String))
    (hstack : st.elementStack = (none, ename) :: rest)
    (hename : ename ≠ "") (hpend : st.namespacesToAdd = [])
    (_hreg : ((alGet st.namespaces (rest.length + 1)).getD []).any
      (fun q => q.1 == p) = true)
    (hother : namespaceFoundAt st.namespaces p rest.length = false)
    (hp : p ≠ "") (hpc : ':' ∉ p.toList) (hnm : nm ≠ "") :
    (XmlWriter.endTag st none).2 = none ∧
    alGet (XmlWriter.endTag st none).1.namespaces (rest.length + 1) = none ∧
    (XmlWriter.startTag (XmlWriter.endTag st none).1 (p ++ ":" ++ nm) []).2 =
      some ("namespace '" ++ p ++ "' for " ++ "tag" ++ " '" ++ nm ++
        "' must be added before use") := by
  have hpend2 : ({ st with
      elementStack := rest,
      namespaces := alDel st.namespaces (((none : Option String), ename) :: rest).length } :
        Writer).namespacesToAdd = [] := hpend
  have hend : XmlWriter.endTag st none =
      (emitTag { st with
          elementStack := rest,
          namespaces := alDel st.namespaces (((none : Option String), ename) :: rest).length }
        (elementName ename none) CloseMode.catStart [], none) := by
    rw [endTag_cons_none st none ename rest hstack,
      writeTag_catStart_success _ none ename hename hpend2 rfl]
  rw [hend]
  have hframe := framePreserved_emitTag
    { st with
      elementStack := rest,
      namespaces := alDel st.namespaces (((none : Option String), ename) :: rest).length }
    (elementName ename none) CloseMode.catStart []
  refine ⟨rfl, ?_, ?_⟩
  · show alGet (emitTag _ _ _ _).namespaces (rest.length + 1) = none
    rw [hframe.2.2.2.2.1]
    exact alGet_alDel_self st.namespaces (rest.length + 1)
  · unfold XmlWriter.startTag
    rw [splitPossiblyQualifiedName_concat p nm hp hpc hnm]
    show (match writeTag (emitTag { st with
        elementStack := rest,
        namespaces := alDel st.namespaces (((none : Option String), ename) :: rest).length }
        (elementName ename none) CloseMode.catStart []) (some p) nm
        CloseMode.cnone [] with
      | (st1, some e) => (st1, some e)
      | (st1, none) =>
        ({ st1 with elementStack := (some p, nm) :: st1.elementStack },
          none)).2 = _
    have hpend3 : (emitTag { st with
        elementStack := rest,
        namespaces := alDel st.namespaces (((none : Option String), ename) :: rest).length }
        (elementName ename none) CloseMode.catStart []).namespacesToAdd = [] :=
      (hframe.2.2.2.2.2.2.2.1).trans hpend2
    have hfound : namespaceFoundAt (emitTag { st with
        elementStack := rest,
        namespaces := alDel st.namespaces (((none : Option String), ename) :: rest).length }
        (elementName ename none) CloseMode.catStart []).namespaces p
        (emitTag { st with
        elementStack := rest,
        namespaces := alDel st.namespaces (((none : Option String), ename) :: rest).length }
        (elementName ename none) CloseMode.catStart []).elementStack.length =
        false := by
      rw [hframe.2.2.2.2.1, hframe.2.2.2.2.2.2.1]
      show namespaceFoundAt (alDel st.namespaces (rest.length + 1)) p
        rest.length = false
      rw [namespaceFoundAt_alDel st.namespaces p (rest.length + 1) rest.length
        (Nat.lt_succ_self _)]
      exact hother
    rw [writeTag_cnone_ns_error _ p nm hnm hpend3 hp hfound]

/-- Witness for C4 at the concrete scoped writer. -/
theorem claim4_child_scope_discarded_witness :
    (XmlWriter.endTag sampleScopedWriter none).2 = none ∧
    alGet (XmlWriter.endTag sampleScopedWriter none).1.namespaces 2 = none ∧
    (XmlWriter.startTag (XmlWriter.endTag sampleScopedWriter none).1
      ("p" ++ ":" ++ "t") []).2 =
      some ("namespace '" ++ "p" ++ "' for " ++ "tag" ++ " '" ++ "t" ++
        "' must be added before use") :=
  claim4_child_scope_discarded sampleScopedWriter "p" "t" "child"
    [(none, "root")] rfl (by decide) rfl (by decide) (by decide) (by decide)
    (by decide) (by decide)

end Loxun
